import Mathlib

/-!
# Verification of the Intcode interpreter (`intcode/src/lib.rs`)

A shallow embedding of the interpreter core: the `Opcode`/`Mode`/`Operation`
decoder, the addressing resolver (`load_arg` / `store_arg`), and the
fetch-decode-execute loop (`exec_operation` / `exec_current` / `execute`).

Modelling conventions:
* `usize` fields (`pc`) become `Nat`; `isize` values (`rel_base`, memory
  cells) become `Int`.  The claims under study never touch native overflow.
* Rust `Result<_, anyhow::Error>` becomes `Except VMErr _`, with one
  constructor per distinct failure site in the source.  A Rust panic from
  direct `Vec` indexing out of bounds (as in `decode` and `load_arg`, which
  index `self.memory[..]` without a bounds check) is modelled by the
  distinguished constructor `VMErr.indexOOB`.
* The caller-supplied `FnMut() -> Option<isize>` input source is modelled as
  a list of `Option Int`: each call pops one element, and an exhausted list
  keeps yielding `none`.
* The unbounded `loop` in `execute` is modelled with explicit fuel; running
  out of fuel yields the artificial `VMErr.outOfFuel`, which corresponds to
  no behaviour of the source (it only marks that more fuel is needed).
-/

instance exceptDecEq {ε α : Type} [DecidableEq ε] [DecidableEq α] :
    DecidableEq (Except ε α) := fun x y =>
  match x, y with
  | .ok a, .ok b =>
      if h : a = b then .isTrue (by rw [h])
      else .isFalse (by intro hc; cases hc; exact h rfl)
  | .error e, .error f =>
      if h : e = f then .isTrue (by rw [h])
      else .isFalse (by intro hc; cases hc; exact h rfl)
  | .ok _, .error _ => .isFalse (by intro hc; cases hc)
  | .error _, .ok _ => .isFalse (by intro hc; cases hc)

/-- Failure modes of the interpreter, one constructor per failure site in the
source (plus the two modelling artifacts `indexOOB` for Rust index panics and
`outOfFuel` for fuel exhaustion of the embedded loop). -/
inductive VMErr : Type
  /-- "Int was negative when decoding operation" (`ensure!(int.is_positive())`). -/
  | negWordDecode : VMErr
  /-- "Unknown opcode {n}" from `Opcode::try_from`. -/
  | unknownOpcode : Nat → VMErr
  /-- "Unknown mode type {n}" from `Mode::try_from`. -/
  | unknownMode : Nat → VMErr
  /-- "Illegal address" from `convert_addr` on a negative address. -/
  | illegalAddr : VMErr
  /-- "Can't store in an immediate" from `store_arg`. -/
  | storeImmediate : VMErr
  /-- Rust panic: direct `self.memory[i]` indexing out of bounds. -/
  | indexOOB : VMErr
  /-- Modelling artifact: the fuelled loop ran out of fuel. -/
  | outOfFuel : VMErr
deriving DecidableEq, Repr

/-- `enum Opcode` with its ten variants. -/
inductive Opcode : Type
  | ADD | MUL | LT | EQ
  | JIT | JIF
  | STR | OUT | BAS
  | HLT
deriving DecidableEq, Repr

/-- `enum InstructionType`. -/
inductive InstructionType : Type
  | A | I | J | H
deriving DecidableEq, Repr

/-- `Opcode::instruction_type`. -/
def Opcode.instruction_type : Opcode → InstructionType
  | .ADD | .MUL | .LT | .EQ => .A
  | .JIT | .JIF => .J
  | .STR | .OUT | .BAS => .I
  | .HLT => .H

/-- `Opcode::instruction_length`. -/
def Opcode.instruction_length (o : Opcode) : Nat :=
  match o.instruction_type with
  | .A => 4
  | .J => 3
  | .I => 2
  | .H => 0

/-- `Opcode::should_move`. -/
def Opcode.should_move (o : Opcode) : Nat :=
  match o.instruction_type with
  | .A => 4
  | .I => 2
  | .J | .H => 0

/-- The numeric discriminant of each `Opcode` variant, as declared in the
`enum Opcode { ADD = 1, ... }` definition. -/
def Opcode.toNat : Opcode → Nat
  | .ADD => 1 | .MUL => 2 | .LT => 7 | .EQ => 8
  | .JIT => 5 | .JIF => 6
  | .STR => 3 | .OUT => 4 | .BAS => 9
  | .HLT => 99

/-- `Opcode::from_usize` (derived `FromPrimitive`): the inverse of the
discriminant table, `None` off the table.  Used by `TryFrom<usize> for Opcode`. -/
def Opcode.fromNat? : Nat → Option Opcode
  | 1 => some .ADD | 2 => some .MUL | 7 => some .LT | 8 => some .EQ
  | 5 => some .JIT | 6 => some .JIF
  | 3 => some .STR | 4 => some .OUT | 9 => some .BAS
  | 99 => some .HLT
  | _ => none

/-- `enum Mode { Position = 0, Immediate = 1, Relative = 2 }`. -/
inductive Mode : Type
  | Position | Immediate | Relative
deriving DecidableEq, Repr

/-- The numeric discriminant of each `Mode` variant. -/
def Mode.toNat : Mode → Nat
  | .Position => 0 | .Immediate => 1 | .Relative => 2

/-- `Mode::from_usize` (derived `FromPrimitive`), used by `TryFrom<usize> for Mode`. -/
def Mode.fromNat? : Nat → Option Mode
  | 0 => some .Position | 1 => some .Immediate | 2 => some .Relative
  | _ => none

/-- `struct Operation`. -/
structure Operation : Type where
  opcode : Opcode
  mode1 : Mode
  mode2 : Mode
  mode3 : Mode
deriving DecidableEq, Repr

/-- `impl TryFrom<isize> for Operation`: `ensure!(int.is_positive())`, cast to
`usize`, then split decimal digits, converting the opcode first and then the
three modes in order. -/
def Operation.tryFrom (int : Int) : Except VMErr Operation :=
  if 0 < int then
    let n : Nat := int.toNat
    match Opcode.fromNat? (n % 100) with
    | none => .error (.unknownOpcode (n % 100))
    | some opcode =>
      match Mode.fromNat? (n / 100 % 10) with
      | none => .error (.unknownMode (n / 100 % 10))
      | some mode1 =>
        match Mode.fromNat? (n / 1000 % 10) with
        | none => .error (.unknownMode (n / 1000 % 10))
        | some mode2 =>
          match Mode.fromNat? (n / 10000 % 10) with
          | none => .error (.unknownMode (n / 10000 % 10))
          | some mode3 => .ok ⟨opcode, mode1, mode2, mode3⟩
  else .error .negWordDecode

/-- `struct IntcodeComputer`. -/
structure IntcodeComputer : Type where
  pc : Nat
  rel_base : Int
  memory : List Int
deriving DecidableEq, Repr

/-- `enum Event`. -/
inductive Event : Type
  | RequestingInput : Event
  | HaveOutput : Int → Event
  | Halted : Event
deriving DecidableEq, Repr

/-- `fn convert_addr(i: isize) -> Result<usize>`:
`ensure!(i.signum() != -1, "Illegal address")`, then cast. -/
def convert_addr (i : Int) : Except VMErr Nat :=
  if i.sign = -1 then .error .illegalAddr else .ok i.toNat

/-- The caller-supplied `FnMut() -> Option<isize>` input source, modelled as a
list of replies: each call consumes one, an empty list replies `none`. -/
def Input : Type := List (Option Int)

/-- One call of the input closure. -/
def nextInput : Input → Option Int × Input
  | [] => (none, [])
  | reply :: rest => (reply, rest)

namespace IntcodeComputer

/-- Direct Rust indexing `self.memory[i]`: panics (modelled as `indexOOB`)
when `i` is out of bounds. -/
def readCell (s : IntcodeComputer) (i : Nat) : Except VMErr Int :=
  match s.memory[i]? with
  | none => .error .indexOOB
  | some v => .ok v

/-- `fn decode(&self)`: `self.memory[self.pc].try_into()`. -/
def decode (s : IntcodeComputer) : Except VMErr Operation := do
  let w ← s.readCell s.pc
  Operation.tryFrom w

/-- `fn get_value_from_addr(&self, addr: isize)`: convert the address, read
`0` at or past the end, the cell otherwise. -/
def get_value_from_addr (s : IntcodeComputer) (addr : Int) : Except VMErr Int := do
  let idx ← convert_addr addr
  if idx ≥ s.memory.length then
    return 0
  return s.memory.getD idx 0

/-- `fn get_ptr_from_addr` followed by the write through the returned
pointer: convert the address, `resize(idx + 1, 0)` when `idx` is at or past
the end, then overwrite cell `idx`. -/
def store_to_addr (s : IntcodeComputer) (addr : Int) (value : Int) :
    Except VMErr IntcodeComputer := do
  let idx ← convert_addr addr
  let mem :=
    if idx ≥ s.memory.length then
      s.memory ++ List.replicate (idx + 1 - s.memory.length) 0
    else
      s.memory
  return { s with memory := mem.set idx value }

/-- `fn load_arg(&self, offset: usize, mode: Mode)`. -/
def load_arg (s : IntcodeComputer) (offset : Nat) (mode : Mode) : Except VMErr Int :=
  match mode with
  | .Immediate => s.readCell (s.pc + offset)
  | .Position => do
      let addr ← s.readCell (s.pc + offset)
      s.get_value_from_addr addr
  | .Relative => do
      let rel_base_augend ← s.readCell (s.pc + offset)
      s.get_value_from_addr (s.rel_base + rel_base_augend)

/-- `fn store_arg(&mut self, offset: usize, mode: Mode, value: isize)`. -/
def store_arg (s : IntcodeComputer) (offset : Nat) (mode : Mode) (value : Int) :
    Except VMErr IntcodeComputer :=
  match mode with
  | .Immediate => .error .storeImmediate
  | .Position => do
      let addr ← s.readCell (s.pc + offset)
      s.store_to_addr addr value
  | .Relative => do
      let rel_base_augend ← s.readCell (s.pc + offset)
      s.store_to_addr (s.rel_base + rel_base_augend) value

/-- The trailing `self.pc += operation.opcode.should_move()` of
`exec_operation`, applied by every arm that does not return early. -/
def bump (s : IntcodeComputer) (op : Operation) : IntcodeComputer :=
  { s with pc := s.pc + op.opcode.should_move }

/-- `fn exec_operation(&mut self, operation, input)`: one instruction.
Returns the optional `Event` together with the updated machine and the
updated input source. -/
def exec_operation (s : IntcodeComputer) (op : Operation) (inp : Input) :
    Except VMErr (Option Event × IntcodeComputer × Input) :=
  match op.opcode with
  | .ADD => do
      let augend ← s.load_arg 1 op.mode1
      let addend ← s.load_arg 2 op.mode2
      let s₁ ← s.store_arg 3 op.mode3 (augend + addend)
      .ok (none, bump s₁ op, inp)
  | .MUL => do
      let multiplicand ← s.load_arg 1 op.mode1
      let multiplier ← s.load_arg 2 op.mode2
      let s₁ ← s.store_arg 3 op.mode3 (multiplicand * multiplier)
      .ok (none, bump s₁ op, inp)
  | .LT => do
      let left ← s.load_arg 1 op.mode1
      let right ← s.load_arg 2 op.mode2
      let s₁ ← s.store_arg 3 op.mode3 (if left < right then 1 else 0)
      .ok (none, bump s₁ op, inp)
  | .EQ => do
      let left ← s.load_arg 1 op.mode1
      let right ← s.load_arg 2 op.mode2
      let s₁ ← s.store_arg 3 op.mode3 (if left = right then 1 else 0)
      .ok (none, bump s₁ op, inp)
  | .JIT => do
      let test ← s.load_arg 1 op.mode1
      let addr ← s.load_arg 2 op.mode2
      let addr ← convert_addr addr
      let s₁ :=
        if test ≠ 0 then { s with pc := addr }
        else { s with pc := s.pc + op.opcode.instruction_length }
      .ok (none, bump s₁ op, inp)
  | .JIF => do
      let test ← s.load_arg 1 op.mode1
      let addr ← s.load_arg 2 op.mode2
      let addr ← convert_addr addr
      let s₁ :=
        if test = 0 then { s with pc := addr }
        else { s with pc := s.pc + op.opcode.instruction_length }
      .ok (none, bump s₁ op, inp)
  | .STR =>
      match nextInput inp with
      | (some value, inp₁) => do
          let s₁ ← s.store_arg 1 op.mode1 value
          .ok (none, bump s₁ op, inp₁)
      | (none, inp₁) => .ok (some .RequestingInput, s, inp₁)
  | .OUT => do
      let output ← s.load_arg 1 op.mode1
      .ok (some (.HaveOutput output), bump s op, inp)
  | .BAS => do
      let augend ← s.load_arg 1 op.mode1
      .ok (none, bump { s with rel_base := s.rel_base + augend } op, inp)
  | .HLT => .ok (some .Halted, s, inp)

/-- `fn exec_current`: decode at `pc`, then execute. -/
def exec_current (s : IntcodeComputer) (inp : Input) :
    Except VMErr (Option Event × IntcodeComputer × Input) := do
  let op ← s.decode
  s.exec_operation op inp

/-- `fn execute(&mut self, input)`: run `exec_current` until an `Event` is
produced, with explicit fuel standing for the unbounded `loop`. -/
def execute : Nat → IntcodeComputer → Input →
    Except VMErr (Event × IntcodeComputer × Input)
  | 0, _, _ => .error .outOfFuel
  | fuel + 1, s, inp =>
    match s.exec_current inp with
    | .error e => .error e
    | .ok (some ev, s₁, inp₁) => .ok (ev, s₁, inp₁)
    | .ok (none, s₁, inp₁) => execute fuel s₁ inp₁

end IntcodeComputer

/-- `IntcodeComputer::new(program)`. -/
def IntcodeComputer.new (program : List Int) : IntcodeComputer :=
  { pc := 0, rel_base := 0, memory := program }

/-- A driver performing `runs` successive `execute` calls and collecting the
events (as the `io_halt` test driver does), threading machine and input. -/
def IntcodeComputer.runSeq : Nat → Nat → IntcodeComputer → Input →
    Except VMErr (List Event × IntcodeComputer × Input)
  | 0, _, s, inp => .ok ([], s, inp)
  | runs + 1, fuel, s, inp =>
    match s.execute fuel inp with
    | .error e => .error e
    | .ok (ev, s₁, inp₁) =>
      match IntcodeComputer.runSeq runs fuel s₁ inp₁ with
      | .error e => .error e
      | .ok (evs, s₂, inp₂) => .ok (ev :: evs, s₂, inp₂)

/-- The events component of `runSeq`. -/
def IntcodeComputer.runSeqEvents (runs fuel : Nat) (s : IntcodeComputer)
    (inp : Input) : Except VMErr (List Event) :=
  (IntcodeComputer.runSeq runs fuel s inp).map (fun r => r.1)

/-! ## Helper lemmas -/

theorem okBind {α β : Type} (a : α) (f : α → Except VMErr β) :
    ((Except.ok a : Except VMErr α) >>= f) = f a := rfl

theorem errBind {α β : Type} (e : VMErr) (f : α → Except VMErr β) :
    ((Except.error e : Except VMErr α) >>= f) = .error e := rfl

theorem convert_addr_of_neg {a : Int} (h : a < 0) :
    convert_addr a = .error .illegalAddr := by
  unfold convert_addr
  rw [if_pos (Int.sign_eq_neg_one_iff_neg.mpr h)]

theorem convert_addr_of_nonneg {a : Int} (h : 0 ≤ a) :
    convert_addr a = .ok a.toNat := by
  unfold convert_addr
  rw [if_neg]
  intro hs
  exact absurd (Int.sign_eq_neg_one_iff_neg.mp hs) (not_lt.mpr h)

theorem exec_current_eq {s : IntcodeComputer} {op : Operation} {inp : Input}
    (hd : s.decode = .ok op) :
    s.exec_current inp = s.exec_operation op inp := by
  unfold IntcodeComputer.exec_current
  rw [hd, okBind]

theorem execute_succ (fuel : Nat) (s : IntcodeComputer) (inp : Input) :
    s.execute (fuel + 1) inp =
      match s.exec_current inp with
      | .error e => .error e
      | .ok (some ev, s₁, inp₁) => .ok (ev, s₁, inp₁)
      | .ok (none, s₁, inp₁) => IntcodeComputer.execute fuel s₁ inp₁ := rfl

/-! ## Claim theorems -/

/-- **C7**: running the program `[1,9,10,3,2,3,11,0,99,30,40,50]` (which has
no input/output instructions) to completion returns the halted event and
leaves memory exactly `[3500,9,10,70,2,3,11,0,99,30,40,50]` (with `pc` at the
`HALT` word, relative base untouched, input source untouched). -/
theorem C7_day02_example :
    IntcodeComputer.execute 3 (IntcodeComputer.new [1,9,10,3,2,3,11,0,99,30,40,50]) [] =
      .ok (.Halted, ⟨8, 0, [3500,9,10,70,2,3,11,0,99,30,40,50]⟩, []) := by
  rfl

/-- **C9**: whenever the instruction at the current `pc` decodes to `HLT`,
every `run` returns the halted event without error and leaves the whole
machine (pc, memory, relative base) and the input source unchanged; hence any
number of successive runs on a halted instance keeps returning `Halted`. -/
theorem C9_halted_stays_halted (s : IntcodeComputer) (op : Operation)
    (hd : s.decode = .ok op) (hh : op.opcode = .HLT) :
    (∀ fuel inp, s.execute (fuel + 1) inp = .ok (.Halted, s, inp)) ∧
    (∀ runs fuel inp, IntcodeComputer.runSeq runs (fuel + 1) s inp =
        .ok (List.replicate runs .Halted, s, inp)) := by
  obtain ⟨opc, m1, m2, m3⟩ := op
  obtain rfl : opc = .HLT := hh
  have hstep : ∀ fuel inp, s.execute (fuel + 1) inp = .ok (.Halted, s, inp) := by
    intro fuel inp
    rw [execute_succ, exec_current_eq hd]
    rfl
  refine ⟨hstep, ?_⟩
  intro runs
  induction runs with
  | zero => intro fuel inp; rfl
  | succ n ih =>
      intro fuel inp
      show IntcodeComputer.runSeq (n + 1) (fuel + 1) s inp = _
      unfold IntcodeComputer.runSeq
      rw [hstep fuel inp]
      dsimp only
      rw [ih fuel inp]
      rfl

/-- **C4**: whenever `OUT` is decoded and its source parameter resolves to
`v`, the run advances `pc` by 2 past the instruction and returns the
produced-output event carrying exactly `v` at once, executing nothing further
in that run (memory, relative base, and input source are untouched). -/
theorem C4_output_returns_at_once (s : IntcodeComputer) (op : Operation)
    (fuel : Nat) (inp : Input) (v : Int)
    (hd : s.decode = .ok op) (hout : op.opcode = .OUT)
    (hv : s.load_arg 1 op.mode1 = .ok v) :
    s.execute (fuel + 1) inp = .ok (.HaveOutput v, { s with pc := s.pc + 2 }, inp) := by
  obtain ⟨opc, m1, m2, m3⟩ := op
  obtain rfl : opc = .OUT := hout
  have hop : s.exec_operation ⟨.OUT, m1, m2, m3⟩ inp =
      s.load_arg 1 m1 >>= fun output =>
        .ok (some (.HaveOutput output), IntcodeComputer.bump s ⟨.OUT, m1, m2, m3⟩, inp) := rfl
  rw [execute_succ, exec_current_eq hd, hop]
  rw [show s.load_arg 1 (⟨.OUT, m1, m2, m3⟩ : Operation).mode1 = s.load_arg 1 m1 from rfl] at hv
  rw [hv, okBind]
  rfl

/-- **C1**: on an instance whose current instruction decodes to `STR`
(store-input), a run with an input source yielding no value returns the
awaiting-input event with pc, memory, and relative base unchanged and the
(empty) source unchanged — so a second run under the same condition returns
the very same event and state; and once an input `v` is available, the next
run consumes exactly that `STR` instruction (performing its store and
advancing pc by 2, popping `v` from the source) and proceeds with the rest of
the run from there. -/
theorem C1_store_input_suspends_and_resumes (s : IntcodeComputer) (op : Operation)
    (hd : s.decode = .ok op) (hstr : op.opcode = .STR) :
    (∀ fuel, s.execute (fuel + 1) [] = .ok (.RequestingInput, s, [])) ∧
    (∀ fuel v rest s₁, s.store_arg 1 op.mode1 v = .ok s₁ →
        s.execute (fuel + 1) (some v :: rest) =
          IntcodeComputer.execute fuel { s₁ with pc := s₁.pc + 2 } rest) := by
  obtain ⟨opc, m1, m2, m3⟩ := op
  obtain rfl : opc = .STR := hstr
  constructor
  · intro fuel
    rw [execute_succ, exec_current_eq hd]
    rfl
  · intro fuel v rest s₁ hst
    have hop : s.exec_operation ⟨.STR, m1, m2, m3⟩ (some v :: rest) =
        s.store_arg 1 m1 v >>= fun s₂ =>
          .ok (none, IntcodeComputer.bump s₂ ⟨.STR, m1, m2, m3⟩, rest) := rfl
    rw [execute_succ, exec_current_eq hd, hop]
    rw [show s.store_arg 1 (⟨.STR, m1, m2, m3⟩ : Operation).mode1 v = s.store_arg 1 m1 v
      from rfl] at hst
    rw [hst, okBind]
    rfl

/-- **C5**: for the two jump instructions, a jump target resolving to a
negative address is a fatal addressing error; on a taken jump `pc` is set to
exactly the resolved target (no further advance); on a not-taken jump `pc`
advances by 3.  `JIT` takes the jump when the condition is nonzero, `JIF`
when it is zero. -/
theorem C5_jump_pc_semantics (s : IntcodeComputer) (op : Operation) (inp : Input)
    (t a : Int)
    (ht : s.load_arg 1 op.mode1 = .ok t) (ha : s.load_arg 2 op.mode2 = .ok a)
    (hj : op.opcode = .JIT ∨ op.opcode = .JIF) :
    (a < 0 → s.exec_operation op inp = .error .illegalAddr) ∧
    (0 ≤ a → op.opcode = .JIT → t ≠ 0 →
        s.exec_operation op inp = .ok (none, { s with pc := a.toNat }, inp)) ∧
    (0 ≤ a → op.opcode = .JIT → t = 0 →
        s.exec_operation op inp = .ok (none, { s with pc := s.pc + 3 }, inp)) ∧
    (0 ≤ a → op.opcode = .JIF → t = 0 →
        s.exec_operation op inp = .ok (none, { s with pc := a.toNat }, inp)) ∧
    (0 ≤ a → op.opcode = .JIF → t ≠ 0 →
        s.exec_operation op inp = .ok (none, { s with pc := s.pc + 3 }, inp)) := by
  obtain ⟨opc, m1, m2, m3⟩ := op
  rcases hj with hj | hj
  · obtain rfl : opc = .JIT := hj
    have hop : s.exec_operation ⟨.JIT, m1, m2, m3⟩ inp =
        s.load_arg 1 m1 >>= fun test =>
          s.load_arg 2 m2 >>= fun addr =>
            convert_addr addr >>= fun addr₁ =>
              .ok (none,
                IntcodeComputer.bump
                  (if test ≠ 0 then { s with pc := addr₁ }
                   else { s with pc := s.pc + Opcode.instruction_length .JIT })
                  ⟨.JIT, m1, m2, m3⟩, inp) := rfl
    refine ⟨?_, ?_, ?_, ?_, ?_⟩
    · intro hneg
      rw [hop, ht, okBind, ha, okBind, convert_addr_of_neg hneg, errBind]
    · intro h0 _ ht0
      rw [hop, ht, okBind, ha, okBind, convert_addr_of_nonneg h0, okBind, if_pos ht0]
      rfl
    · intro h0 _ ht0
      rw [hop, ht, okBind, ha, okBind, convert_addr_of_nonneg h0, okBind,
        if_neg (not_not_intro ht0)]
      rfl
    · intro _ hj' _
      exact Opcode.noConfusion hj'
    · intro _ hj' _
      exact Opcode.noConfusion hj'
  · obtain rfl : opc = .JIF := hj
    have hop : s.exec_operation ⟨.JIF, m1, m2, m3⟩ inp =
        s.load_arg 1 m1 >>= fun test =>
          s.load_arg 2 m2 >>= fun addr =>
            convert_addr addr >>= fun addr₁ =>
              .ok (none,
                IntcodeComputer.bump
                  (if test = 0 then { s with pc := addr₁ }
                   else { s with pc := s.pc + Opcode.instruction_length .JIF })
                  ⟨.JIF, m1, m2, m3⟩, inp) := rfl
    refine ⟨?_, ?_, ?_, ?_, ?_⟩
    · intro hneg
      rw [hop, ht, okBind, ha, okBind, convert_addr_of_neg hneg, errBind]
    · intro _ hj' _
      exact Opcode.noConfusion hj'
    · intro _ hj' _
      exact Opcode.noConfusion hj'
    · intro h0 _ ht0
      rw [hop, ht, okBind, ha, okBind, convert_addr_of_nonneg h0, okBind, if_pos ht0]
      rfl
    · intro h0 _ ht0
      rw [hop, ht, okBind, ha, okBind, convert_addr_of_nonneg h0, okBind, if_neg ht0]
      rfl

/-- **C10**: the jump target is resolved and its non-negativity checked
before the condition is examined, so a run fails with the fatal addressing
error whenever the resolved target is negative even when the branch would
not be taken (condition zero for `JIT`, condition nonzero for `JIF`). -/
theorem C10_jump_target_checked_even_if_not_taken (s : IntcodeComputer)
    (op : Operation) (inp : Input) (fuel : Nat) (a : Int)
    (hd : s.decode = .ok op) (ha : s.load_arg 2 op.mode2 = .ok a) (hneg : a < 0) :
    (op.opcode = .JIT → s.load_arg 1 op.mode1 = .ok 0 →
        s.execute (fuel + 1) inp = .error .illegalAddr) ∧
    (∀ t, op.opcode = .JIF → s.load_arg 1 op.mode1 = .ok t → t ≠ 0 →
        s.execute (fuel + 1) inp = .error .illegalAddr) := by
  obtain ⟨opc, m1, m2, m3⟩ := op
  constructor
  · intro hj ht
    obtain rfl : opc = .JIT := hj
    have hop : s.exec_operation ⟨.JIT, m1, m2, m3⟩ inp =
        s.load_arg 1 m1 >>= fun test =>
          s.load_arg 2 m2 >>= fun addr =>
            convert_addr addr >>= fun addr₁ =>
              .ok (none,
                IntcodeComputer.bump
                  (if test ≠ 0 then { s with pc := addr₁ }
                   else { s with pc := s.pc + Opcode.instruction_length .JIT })
                  ⟨.JIT, m1, m2, m3⟩, inp) := rfl
    rw [execute_succ, exec_current_eq hd, hop, ht, okBind, ha, okBind,
      convert_addr_of_neg hneg, errBind]
  · intro t hj ht ht0
    obtain rfl : opc = .JIF := hj
    have hop : s.exec_operation ⟨.JIF, m1, m2, m3⟩ inp =
        s.load_arg 1 m1 >>= fun test =>
          s.load_arg 2 m2 >>= fun addr =>
            convert_addr addr >>= fun addr₁ =>
              .ok (none,
                IntcodeComputer.bump
                  (if test = 0 then { s with pc := addr₁ }
                   else { s with pc := s.pc + Opcode.instruction_length .JIF })
                  ⟨.JIF, m1, m2, m3⟩, inp) := rfl
    rw [execute_succ, exec_current_eq hd, hop, ht, okBind, ha, okBind,
      convert_addr_of_neg hneg, errBind]

/-- **C6**: a store through an Immediate-mode parameter is the fatal
store-through-immediate error; a load or store whose resolved address (raw
cell, or relative base plus raw cell) is negative is the fatal illegal-address
error; and any error of the current instruction propagates out of the whole
run as a failure, distinct from every `Event`, with no retry. -/
theorem C6_addressing_errors_are_fatal (s : IntcodeComputer) :
    (∀ offset v, s.store_arg offset .Immediate v = .error .storeImmediate) ∧
    (∀ offset a, s.readCell (s.pc + offset) = .ok a → a < 0 →
        s.load_arg offset .Position = .error .illegalAddr ∧
        ∀ v, s.store_arg offset .Position v = .error .illegalAddr) ∧
    (∀ offset a, s.readCell (s.pc + offset) = .ok a → s.rel_base + a < 0 →
        s.load_arg offset .Relative = .error .illegalAddr ∧
        ∀ v, s.store_arg offset .Relative v = .error .illegalAddr) ∧
    (∀ fuel inp op e, s.decode = .ok op → s.exec_operation op inp = .error e →
        s.execute (fuel + 1) inp = .error e) := by
  refine ⟨fun _ _ => rfl, ?_, ?_, ?_⟩
  · intro offset a hr hneg
    constructor
    · have hl : s.load_arg offset .Position =
          s.readCell (s.pc + offset) >>= fun addr => s.get_value_from_addr addr := rfl
      rw [hl, hr, okBind]
      unfold IntcodeComputer.get_value_from_addr
      rw [convert_addr_of_neg hneg, errBind]
    · intro v
      have hst : s.store_arg offset .Position v =
          s.readCell (s.pc + offset) >>= fun addr => s.store_to_addr addr v := rfl
      rw [hst, hr, okBind]
      unfold IntcodeComputer.store_to_addr
      rw [convert_addr_of_neg hneg, errBind]
  · intro offset a hr hneg
    constructor
    · have hl : s.load_arg offset .Relative =
          s.readCell (s.pc + offset) >>= fun augend =>
            s.get_value_from_addr (s.rel_base + augend) := rfl
      rw [hl, hr, okBind]
      unfold IntcodeComputer.get_value_from_addr
      rw [convert_addr_of_neg hneg, errBind]
    · intro v
      have hst : s.store_arg offset .Relative v =
          s.readCell (s.pc + offset) >>= fun augend =>
            s.store_to_addr (s.rel_base + augend) v := rfl
      rw [hst, hr, okBind]
      unfold IntcodeComputer.store_to_addr
      rw [convert_addr_of_neg hneg, errBind]
  · intro fuel inp op e hd he
    rw [execute_succ, exec_current_eq hd, he]

/-- **C8**: running the "quine" program with an input source that never
yields a value produces, over 17 successive runs, exactly 16 produced-output
events whose values are the program's own 16 integers in order, followed by
the halted event. -/
theorem C8_quine_outputs_itself_then_halts :
    IntcodeComputer.runSeqEvents 17 10
        (IntcodeComputer.new [109,1,204,-1,1001,100,1,100,1008,100,16,101,1006,101,0,99]) [] =
      .ok (([109,1,204,-1,1001,100,1,100,1008,100,16,101,1006,101,0,99].map Event.HaveOutput)
        ++ [Event.Halted]) := by
  rfl

/-- The closed opcode set of the spec's table. -/
def validOpcodes : List Nat := [1, 2, 3, 4, 5, 6, 7, 8, 9, 99]

theorem opcode_table_complete :
    ∀ n, n < 100 →
      (n ∈ validOpcodes → (Opcode.fromNat? n).map Opcode.toNat = some n) ∧
      (n ∉ validOpcodes → Opcode.fromNat? n = none) := by decide

theorem mode_table_complete :
    ∀ m, m < 10 →
      (m ≤ 2 → (Mode.fromNat? m).map Mode.toNat = some m) ∧
      (¬ m ≤ 2 → Mode.fromNat? m = none) := by decide

/-- **C3 counterexample**: the claim says a *negative* word is the fatal
negative-word error and every *non-negative* word is decoded by digit
extraction, failing on opcode 0 as the unknown-opcode error.  But the source
checks `int.is_positive()`, so the word 0 — non-negative, with opcode digit
0 — takes the negative-word path, not the unknown-opcode path. -/
theorem C3_counterexample :
    Operation.tryFrom 0 = .error .negWordDecode ∧
    Operation.tryFrom 0 ≠ .error (.unknownOpcode 0) := by
  constructor
  · rfl
  · decide

/-- **C3** (amended, counterexample `C3_counterexample`): decoding a word
`v ≤ 0` — not only a negative one — signals the fatal negative-word error
(the source tests `is_positive`); for every *positive* `v` the decoder
extracts `opcode = v mod 100` and the three mode digits, succeeds exactly
when the opcode lies in the closed set `{1,...,9,99}` and every mode digit is
at most 2, fails with the unknown-opcode error on any other opcode, and with
an unknown-mode error on any other mode digit. -/
theorem C3_decode_characterization (v : Int) :
    (v ≤ 0 → Operation.tryFrom v = .error .negWordDecode) ∧
    (0 < v →
      ((∃ op, Operation.tryFrom v = .ok op) ↔
        (v.toNat % 100 ∈ validOpcodes ∧ v.toNat / 100 % 10 ≤ 2 ∧
         v.toNat / 1000 % 10 ≤ 2 ∧ v.toNat / 10000 % 10 ≤ 2)) ∧
      (∀ op, Operation.tryFrom v = .ok op →
         op.opcode.toNat = v.toNat % 100 ∧ op.mode1.toNat = v.toNat / 100 % 10 ∧
         op.mode2.toNat = v.toNat / 1000 % 10 ∧ op.mode3.toNat = v.toNat / 10000 % 10) ∧
      (v.toNat % 100 ∉ validOpcodes →
         Operation.tryFrom v = .error (.unknownOpcode (v.toNat % 100))) ∧
      (v.toNat % 100 ∈ validOpcodes →
       ¬(v.toNat / 100 % 10 ≤ 2 ∧ v.toNat / 1000 % 10 ≤ 2 ∧ v.toNat / 10000 % 10 ≤ 2) →
         ∃ m, 2 < m ∧ Operation.tryFrom v = .error (.unknownMode m))) := by
  constructor
  · intro h
    unfold Operation.tryFrom
    rw [if_neg (not_lt.mpr h)]
  · intro hv
    have step : Operation.tryFrom v =
        match Opcode.fromNat? (v.toNat % 100) with
        | none => .error (.unknownOpcode (v.toNat % 100))
        | some opcode =>
          match Mode.fromNat? (v.toNat / 100 % 10) with
          | none => .error (.unknownMode (v.toNat / 100 % 10))
          | some mode1 =>
            match Mode.fromNat? (v.toNat / 1000 % 10) with
            | none => .error (.unknownMode (v.toNat / 1000 % 10))
            | some mode2 =>
              match Mode.fromNat? (v.toNat / 10000 % 10) with
              | none => .error (.unknownMode (v.toNat / 10000 % 10))
              | some mode3 => .ok ⟨opcode, mode1, mode2, mode3⟩ := by
      unfold Operation.tryFrom
      rw [if_pos hv]
    have h100 : v.toNat % 100 < 100 := Nat.mod_lt _ (by norm_num)
    have hd1 : v.toNat / 100 % 10 < 10 := Nat.mod_lt _ (by norm_num)
    have hd2 : v.toNat / 1000 % 10 < 10 := Nat.mod_lt _ (by norm_num)
    have hd3 : v.toNat / 10000 % 10 < 10 := Nat.mod_lt _ (by norm_num)
    rcases hoc : Opcode.fromNat? (v.toNat % 100) with _ | oc
    · -- unknown opcode
      have hnot : v.toNat % 100 ∉ validOpcodes := by
        intro hmem
        have hsome := (opcode_table_complete _ h100).1 hmem
        rw [hoc] at hsome
        exact Option.noConfusion hsome
      rw [step, hoc]
      refine ⟨?_, ?_, fun _ => rfl, fun hmem _ => absurd hmem hnot⟩
      · constructor
        · rintro ⟨op, hop⟩
          exact Except.noConfusion hop
        · rintro ⟨hmem, -⟩
          exact absurd hmem hnot
      · intro op hop
        exact Except.noConfusion hop
    · -- opcode valid
      have hmem : v.toNat % 100 ∈ validOpcodes := by
        by_contra hmem
        have hnone := (opcode_table_complete _ h100).2 hmem
        rw [hoc] at hnone
        exact Option.noConfusion hnone
      have hocval : oc.toNat = v.toNat % 100 := by
        have hsome := (opcode_table_complete _ h100).1 hmem
        rw [hoc] at hsome
        exact Option.some.inj (show some oc.toNat = some (v.toNat % 100) from hsome)
      rcases hm1 : Mode.fromNat? (v.toNat / 100 % 10) with _ | md1
      · -- mode1 digit invalid
        have h2 : ¬ v.toNat / 100 % 10 ≤ 2 := by
          intro hle
          have hsome := (mode_table_complete _ hd1).1 hle
          rw [hm1] at hsome
          exact Option.noConfusion hsome
        rw [step, hoc, hm1]
        refine ⟨?_, ?_, fun hnot => absurd hmem hnot, ?_⟩
        · constructor
          · rintro ⟨op, hop⟩
            exact Except.noConfusion hop
          · rintro ⟨-, hle, -, -⟩
            exact absurd hle h2
        · intro op hop
          exact Except.noConfusion hop
        · intro _ _
          exact ⟨_, by omega, rfl⟩
      · have hm1le : v.toNat / 100 % 10 ≤ 2 := by
          by_contra hle
          have hnone := (mode_table_complete _ hd1).2 hle
          rw [hm1] at hnone
          exact Option.noConfusion hnone
        have hm1val : md1.toNat = v.toNat / 100 % 10 := by
          have hsome := (mode_table_complete _ hd1).1 hm1le
          rw [hm1] at hsome
          exact Option.some.inj (show some md1.toNat = some (v.toNat / 100 % 10) from hsome)
        rcases hm2 : Mode.fromNat? (v.toNat / 1000 % 10) with _ | md2
        · have h2 : ¬ v.toNat / 1000 % 10 ≤ 2 := by
            intro hle
            have hsome := (mode_table_complete _ hd2).1 hle
            rw [hm2] at hsome
            exact Option.noConfusion hsome
          rw [step, hoc, hm1, hm2]
          refine ⟨?_, ?_, fun hnot => absurd hmem hnot, ?_⟩
          · constructor
            · rintro ⟨op, hop⟩
              exact Except.noConfusion hop
            · rintro ⟨-, -, hle, -⟩
              exact absurd hle h2
          · intro op hop
            exact Except.noConfusion hop
          · intro _ _
            exact ⟨_, by omega, rfl⟩
        · have hm2le : v.toNat / 1000 % 10 ≤ 2 := by
            by_contra hle
            have hnone := (mode_table_complete _ hd2).2 hle
            rw [hm2] at hnone
            exact Option.noConfusion hnone
          have hm2val : md2.toNat = v.toNat / 1000 % 10 := by
            have hsome := (mode_table_complete _ hd2).1 hm2le
            rw [hm2] at hsome
            exact Option.some.inj (show some md2.toNat = some (v.toNat / 1000 % 10) from hsome)
          rcases hm3 : Mode.fromNat? (v.toNat / 10000 % 10) with _ | md3
          · have h2 : ¬ v.toNat / 10000 % 10 ≤ 2 := by
              intro hle
              have hsome := (mode_table_complete _ hd3).1 hle
              rw [hm3] at hsome
              exact Option.noConfusion hsome
            rw [step, hoc, hm1, hm2, hm3]
            refine ⟨?_, ?_, fun hnot => absurd hmem hnot, ?_⟩
            · constructor
              · rintro ⟨op, hop⟩
                exact Except.noConfusion hop
              · rintro ⟨-, -, -, hle⟩
                exact absurd hle h2
            · intro op hop
              exact Except.noConfusion hop
            · intro _ _
              exact ⟨_, by omega, rfl⟩
          · have hm3le : v.toNat / 10000 % 10 ≤ 2 := by
              by_contra hle
              have hnone := (mode_table_complete _ hd3).2 hle
              rw [hm3] at hnone
              exact Option.noConfusion hnone
            have hm3val : md3.toNat = v.toNat / 10000 % 10 := by
              have hsome := (mode_table_complete _ hd3).1 hm3le
              rw [hm3] at hsome
              exact Option.some.inj
                (show some md3.toNat = some (v.toNat / 10000 % 10) from hsome)
            rw [step, hoc, hm1, hm2, hm3]
            refine ⟨?_, ?_, fun hnot => absurd hmem hnot,
              fun _ hnot => absurd ⟨hm1le, hm2le, hm3le⟩ hnot⟩
            · exact ⟨fun _ => ⟨hmem, hm1le, hm2le, hm3le⟩, fun _ => ⟨_, rfl⟩⟩
            · intro op hop
              obtain rfl : op = ⟨oc, md1, md2, md3⟩ :=
                (Except.ok.inj hop).symm
              exact ⟨hocval, hm1val, hm2val, hm3val⟩

instance inputDecEq : DecidableEq Input :=
  fun a b => (inferInstanceAs (DecidableEq (List (Option Int)))) a b

/-- **C3 witness**: the characterization applied at the concrete words `-5`
(negative-word error) and `1002` (successful decode of `MUL` with modes
`0,1,0`). -/
theorem C3_witness :
    Operation.tryFrom (-5) = .error .negWordDecode ∧
    ((∃ op, Operation.tryFrom 1002 = .ok op) ↔
      ((1002 : Int).toNat % 100 ∈ validOpcodes ∧ (1002 : Int).toNat / 100 % 10 ≤ 2 ∧
       (1002 : Int).toNat / 1000 % 10 ≤ 2 ∧ (1002 : Int).toNat / 10000 % 10 ≤ 2)) :=
  ⟨(C3_decode_characterization (-5)).1 (by decide),
   ((C3_decode_characterization 1002).2 (by decide)).1⟩

/-- **C2 counterexample**: in the one-cell program `[4]` (an `OUT` whose
raw parameter cell at `pc+1` lies past the end of memory) the claim says the
raw-cell read performed during execution yields 0 without failure, so the run
would return the produced-output event; the code instead indexes
`memory[pc+1]` directly and panics, so the run fails.  The second conjunct
shows that the same out-of-bounds address *through the addressing resolver*
does read as 0. -/
theorem C2_counterexample :
    IntcodeComputer.execute 1 ⟨0, 0, [4]⟩ [] = .error .indexOOB ∧
    IntcodeComputer.get_value_from_addr ⟨0, 0, [4]⟩ 1 = .ok 0 := by
  exact ⟨rfl, rfl⟩

/-- **C2** (amended, counterexample `C2_counterexample`): memory accesses
that go *through the addressing resolver* are zero-extended — a resolved read
(`get_value_from_addr`) at or past the current length yields 0 with no
failure and no mutation, and a resolved write (`store_to_addr`) at or past
the current length grows memory with zeros up to and including that address
and then succeeds, preserving the old cells.  The original claim's further
assertion that the instruction-word fetch at `pc` and the raw parameter cells
at `pc+k` also read as 0 past the end is false: those are direct `Vec` index
operations, which panic (see the counterexample). -/
theorem C2_resolver_zero_extension (s : IntcodeComputer) (addr v : Int)
    (h0 : 0 ≤ addr) (hlen : s.memory.length ≤ addr.toNat) :
    s.get_value_from_addr addr = .ok 0 ∧
    ∃ s₁, s.store_to_addr addr v = .ok s₁ ∧
      s₁.pc = s.pc ∧ s₁.rel_base = s.rel_base ∧
      s₁.memory.length = addr.toNat + 1 ∧
      s₁.memory[addr.toNat]? = some v ∧
      (∀ i, i < s.memory.length → s₁.memory[i]? = s.memory[i]?) ∧
      (∀ i, s.memory.length ≤ i → i < addr.toNat → s₁.memory[i]? = some 0) := by
  have hread : s.get_value_from_addr addr = .ok 0 := by
    unfold IntcodeComputer.get_value_from_addr
    rw [convert_addr_of_nonneg h0, okBind, if_pos hlen]
    rfl
  have hst : s.store_to_addr addr v = .ok { s with memory := ((s.memory ++ List.replicate (addr.toNat + 1 - s.memory.length) 0).set addr.toNat v) } := by
    unfold IntcodeComputer.store_to_addr
    rw [convert_addr_of_nonneg h0, okBind]
    dsimp only
    rw [if_pos hlen]
    rfl
  have hlength :
      ((s.memory ++ List.replicate (addr.toNat + 1 - s.memory.length) 0).set
        addr.toNat v).length = addr.toNat + 1 := by
    rw [List.length_set, List.length_append, List.length_replicate]
    omega
  refine ⟨hread, _, hst, rfl, rfl, hlength, ?_, ?_, ?_⟩
  · exact List.getElem?_set_self
      (by rw [List.length_append, List.length_replicate]; omega)
  · intro i hi
    rw [List.getElem?_set_ne (by omega)]
    exact List.getElem?_append_left hi
  · intro i h1 h2
    rw [List.getElem?_set_ne (by omega), List.getElem?_append_right h1,
      List.getElem?_replicate_of_lt (by omega)]

/-- **C2 witness**: the amended claim applied at the concrete machine with
memory `[1, 2]`, address 3 and stored value 7: the read yields 0, the write
produces memory `[1, 2, 0, 7]`. -/
theorem C2_witness :
    IntcodeComputer.get_value_from_addr ⟨0, 0, [1, 2]⟩ 3 = .ok 0 ∧
    ∃ s₁, IntcodeComputer.store_to_addr ⟨0, 0, [1, 2]⟩ 3 7 = .ok s₁ ∧
      s₁.pc = (⟨0, 0, [1, 2]⟩ : IntcodeComputer).pc ∧
      s₁.rel_base = (⟨0, 0, [1, 2]⟩ : IntcodeComputer).rel_base ∧
      s₁.memory.length = (3 : Int).toNat + 1 ∧
      s₁.memory[(3 : Int).toNat]? = some 7 ∧
      (∀ i, i < (⟨0, 0, [1, 2]⟩ : IntcodeComputer).memory.length →
        s₁.memory[i]? = (⟨0, 0, [1, 2]⟩ : IntcodeComputer).memory[i]?) ∧
      (∀ i, (⟨0, 0, [1, 2]⟩ : IntcodeComputer).memory.length ≤ i →
        i < (3 : Int).toNat → s₁.memory[i]? = some 0) :=
  C2_resolver_zero_extension ⟨0, 0, [1, 2]⟩ 3 7 (by decide) (by decide)

/-- **C1 witness**: the suspend/resume behaviour on the concrete program
`[3, 0, 99]`: with no input the run returns awaiting-input with the state
untouched; with input 7 the run stores 7 at address 0, advances `pc` to 2,
and continues from there. -/
theorem C1_witness :
    IntcodeComputer.execute 1 ⟨0, 0, [3, 0, 99]⟩ [] =
      .ok (.RequestingInput, ⟨0, 0, [3, 0, 99]⟩, []) ∧
    IntcodeComputer.execute 2 ⟨0, 0, [3, 0, 99]⟩ [some 7] =
      IntcodeComputer.execute 1 ⟨2, 0, [7, 0, 99]⟩ [] := by
  have h := C1_store_input_suspends_and_resumes ⟨0, 0, [3, 0, 99]⟩
    ⟨.STR, .Position, .Position, .Position⟩ (by decide) rfl
  exact ⟨h.1 0, h.2 1 7 [] ⟨0, 0, [7, 0, 99]⟩ (by decide)⟩

/-- **C4 witness**: `OUT` with an immediate parameter on `[104, 5, 99]`
returns `HaveOutput 5` at once with `pc` advanced to 2. -/
theorem C4_witness :
    IntcodeComputer.execute 1 ⟨0, 0, [104, 5, 99]⟩ [] =
      .ok (.HaveOutput 5, ⟨2, 0, [104, 5, 99]⟩, []) :=
  C4_output_returns_at_once ⟨0, 0, [104, 5, 99]⟩
    ⟨.OUT, .Immediate, .Position, .Position⟩ 0 [] 5 (by decide) rfl (by decide)

/-- **C5 witness**: a taken `JIT` with target 7 sets `pc` to exactly 7, and
the same instruction with target `-7` is the fatal illegal-address error. -/
theorem C5_witness :
    IntcodeComputer.exec_operation ⟨0, 0, [1105, 1, 7, 99]⟩
        ⟨.JIT, .Immediate, .Immediate, .Position⟩ [] =
      .ok (none, ⟨7, 0, [1105, 1, 7, 99]⟩, []) ∧
    IntcodeComputer.exec_operation ⟨0, 0, [1105, 1, -7, 99]⟩
        ⟨.JIT, .Immediate, .Immediate, .Position⟩ [] = .error .illegalAddr := by
  constructor
  · exact (C5_jump_pc_semantics _ _ _ 1 7 (by decide) (by decide) (Or.inl rfl)).2.1
      (by decide) rfl (by decide)
  · exact (C5_jump_pc_semantics _ _ _ 1 (-7) (by decide) (by decide) (Or.inl rfl)).1
      (by decide)

/-- **C6 witness**: concrete instances — an immediate store target, a
position-mode load through the negative raw cell `-3`, a relative-mode load
resolving to `-2 + 1 = -1`, and the propagation of the illegal-address error
out of a whole run. -/
theorem C6_witness :
    IntcodeComputer.store_arg ⟨0, 0, [3, 1, 99]⟩ 1 .Immediate 5 =
      .error .storeImmediate ∧
    IntcodeComputer.load_arg ⟨0, 0, [4, -3]⟩ 1 .Position = .error .illegalAddr ∧
    IntcodeComputer.load_arg ⟨0, -2, [204, 1]⟩ 1 .Relative = .error .illegalAddr ∧
    IntcodeComputer.execute 1 ⟨0, 0, [4, -3]⟩ [] = .error .illegalAddr := by
  refine ⟨(C6_addressing_errors_are_fatal ⟨0, 0, [3, 1, 99]⟩).1 1 5, ?_, ?_, ?_⟩
  · exact ((C6_addressing_errors_are_fatal ⟨0, 0, [4, -3]⟩).2.1 1 (-3)
      (by decide) (by decide)).1
  · exact ((C6_addressing_errors_are_fatal ⟨0, -2, [204, 1]⟩).2.2.1 1 1
      (by decide) (by decide)).1
  · exact (C6_addressing_errors_are_fatal ⟨0, 0, [4, -3]⟩).2.2.2 0 []
      ⟨.OUT, .Position, .Position, .Position⟩ .illegalAddr (by decide) (by decide)

/-- **C9 witness**: the one-instruction program `[99]` returns `Halted` with
an unchanged machine, and three successive runs return `Halted` three
times. -/
theorem C9_witness :
    IntcodeComputer.execute 1 ⟨0, 0, [99]⟩ [] = .ok (.Halted, ⟨0, 0, [99]⟩, []) ∧
    IntcodeComputer.runSeq 3 1 ⟨0, 0, [99]⟩ [] =
      .ok ([.Halted, .Halted, .Halted], ⟨0, 0, [99]⟩, []) := by
  have h := C9_halted_stays_halted ⟨0, 0, [99]⟩
    ⟨.HLT, .Position, .Position, .Position⟩ (by decide) rfl
  exact ⟨h.1 0 [], h.2 3 0 []⟩

/-- **C10 witness**: `[1105, 0, -1]` (`JIT` with condition 0, so the branch
would not be taken) and `[1106, 1, -1]` (`JIF` with condition 1) both fail
with the illegal-address error because the negative target is checked before
the condition. -/
theorem C10_witness :
    IntcodeComputer.execute 1 ⟨0, 0, [1105, 0, -1]⟩ [] = .error .illegalAddr ∧
    IntcodeComputer.execute 1 ⟨0, 0, [1106, 1, -1]⟩ [] = .error .illegalAddr := by
  constructor
  · exact (C10_jump_target_checked_even_if_not_taken ⟨0, 0, [1105, 0, -1]⟩
      ⟨.JIT, .Immediate, .Immediate, .Position⟩ [] 0 (-1)
      (by decide) (by decide) (by decide)).1 rfl (by decide)
  · exact (C10_jump_target_checked_even_if_not_taken ⟨0, 0, [1106, 1, -1]⟩
      ⟨.JIF, .Immediate, .Immediate, .Position⟩ [] 0 (-1)
      (by decide) (by decide) (by decide)).2 1 rfl (by decide) (by decide)
